import Mathlib

/-!
Verification development for the bulk file renamer
(src/core/file_manager.py, src/core/renamer.py, src/core/pattern_builder.py,
src/utils/file_utils.py, src/utils/validators.py, src/config/constants.py).

The Python code is shallowly embedded: the filesystem is a list of the paths
that currently exist, `os.rename` is a pure transformation of that list, and
the mutable objects (`FileItem`, `RenameOperation`, `PatternBuilder`,
`BulkRenamer`) become records transformed by pure functions.  Dates are an
oracle parameter (`get_date_by_type` reads file metadata, an external effect).
-/

set_option maxHeartbeats 1000000

/-! ## Python string/path primitives (models of `os.path` and `str` methods) -/

namespace Py

/-- ASCII whitespace, the fragment of Python's `str.isspace`/regex `\s` class
exercised here (the full class also holds non-ASCII unicode whitespace). -/
def isSpaceChar (c : Char) : Bool :=
  c = ' ' || c = '\t' || c = '\n' || c = '\r' || c = '\x0b' || c = '\x0c'

/-- Python `str.strip()` (no argument: strips whitespace from both ends). -/
def strip (s : String) : String :=
  String.mk (((s.toList.dropWhile isSpaceChar).reverse.dropWhile isSpaceChar).reverse)

/-- Python `str.lower()` (ASCII fragment). -/
def toLower (s : String) : String := String.mk (s.toList.map Char.toLower)

/-- Python `str.upper()` (ASCII fragment). -/
def toUpper (s : String) : String := String.mk (s.toList.map Char.toUpper)

/-- Python `str.endswith(suf)`. -/
def endsWith (s suf : String) : Bool := List.isSuffixOf suf.toList s.toList

/-- Python `str.startswith(pre)`. -/
def startsWith (s pre : String) : Bool := List.isPrefixOf pre.toList s.toList

/-- Index (from the front) of the last character satisfying `p`, if any:
models `str.rfind` for a single-character needle. -/
def rfindIdx (l : List Char) (p : Char → Bool) : Option Nat :=
  match l.reverse.findIdx? p with
  | some i => some (l.length - 1 - i)
  | none => none

/-- `posixpath.basename`: everything after the last slash. -/
def basename (p : String) : String :=
  match rfindIdx p.toList (fun c => c = '/') with
  | some i => String.mk (p.toList.drop (i + 1))
  | none => p

/-- `posixpath.dirname`: everything up to the last slash, with trailing
slashes stripped unless the head is all slashes. -/
def dirname (p : String) : String :=
  match rfindIdx p.toList (fun c => c = '/') with
  | some i =>
      let head := p.toList.take (i + 1)
      if head.all (fun c => c = '/') then String.mk head
      else String.mk (head.reverse.dropWhile (fun c => c = '/')).reverse
  | none => ""

/-- `posixpath.join` for two components. -/
def joinPath (a b : String) : String :=
  if startsWith b "/" then b
  else if a = "" || endsWith a "/" then a ++ b
  else a ++ "/" ++ b

/-- `posixpath.splitext`: split off the extension at the last dot of the
basename, provided some earlier character of the basename is not a dot. -/
def splitext (p : String) : String × String :=
  let l := p.toList
  let sepIdx : Option Nat := rfindIdx l (fun c => c = '/')
  let dotIdx : Option Nat := rfindIdx l (fun c => c = '.')
  let base : Nat := match sepIdx with | some i => i + 1 | none => 0
  match dotIdx with
  | some d =>
      if base ≤ d ∧ ((l.drop base).take (d - base)).any (fun c => c ≠ '.') then
        (String.mk (l.take d), String.mk (l.drop d))
      else (p, "")
  | none => (p, "")

/-- Python `str.zfill(width)`: left-pad with zeros to `width`, keeping a
leading sign in place. -/
def zfill (s : String) (width : Int) : String :=
  if width ≤ (s.length : Int) then s
  else
    let pad := (width - (s.length : Int)).toNat
    match s.toList with
    | c :: rest =>
        if c = '+' ∨ c = '-' then String.mk (c :: (List.replicate pad '0' ++ rest))
        else String.mk (List.replicate pad '0' ++ (c :: rest))
    | [] => String.mk (List.replicate pad '0')

/-- Python `int(s)` on the strings this program feeds it: optional sign and
decimal digits after stripping whitespace.  (Digit-group underscores, which
`int` also accepts, never occur here: the inputs are `str(n)` round trips.) -/
def parseInt (s : String) : Option Int :=
  let t := (strip s).toList
  let (sign, digits) : Int × List Char :=
    match t with
    | '-' :: rest => (-1, rest)
    | '+' :: rest => (1, rest)
    | _ => (1, t)
  if digits = [] ∨ ¬ digits.all Char.isDigit then none
  else some (sign * (digits.foldl (fun acc c => acc * 10 + (c.toNat - '0'.toNat)) 0 : Nat))

/-- Python `str.replace(find, repl)`: all non-overlapping occurrences, left to
right.  An empty needle interleaves the replacement, as in Python. -/
def strReplace (s find repl : String) : String :=
  if find.toList = [] then
    repl ++ String.join (s.toList.map (fun c => String.mk [c] ++ repl))
  else String.mk (go s.toList 0)
where
  /-- One character per step; on a match emit the replacement and skip the
  remaining `len - 1` matched characters via the counter (the caller only
  reaches this with a non-empty needle). -/
  go : List Char → Nat → List Char
    | [], _ => []
    | _ :: rest, Nat.succ k => go rest k
    | c :: rest, 0 =>
      if List.isPrefixOf find.toList (c :: rest) then
        repl.toList ++ go rest (find.toList.length - 1)
      else c :: go rest 0

/-- `re.sub(re.escape(find), repl, s, flags=re.IGNORECASE)`: the escaped
needle matches literally, compared case-insensitively (ASCII fragment). -/
def strReplaceCI (s find repl : String) : String :=
  if find.toList = [] then
    repl ++ String.join (s.toList.map (fun c => String.mk [c] ++ repl))
  else String.mk (go s.toList 0)
where
  matchesAt (l : List Char) : Bool :=
    (find.toList.length ≤ l.length) &&
      ((l.take find.toList.length).map Char.toLower = find.toList.map Char.toLower)
  go : List Char → Nat → List Char
    | [], _ => []
    | _ :: rest, Nat.succ k => go rest k
    | c :: rest, 0 =>
      if matchesAt (c :: rest) then
        repl.toList ++ go rest (find.toList.length - 1)
      else c :: go rest 0

end Py

/-! ## The filesystem model -/

/-- The filesystem as the list of existing file paths (no duplicates are ever
introduced by the operations below). -/
abbrev Fs := List String

/-- `os.path.exists`. -/
def fsExists (fs : Fs) (p : String) : Bool := fs.contains p

/-- `os.rename old new`: fails (raises `OSError`) when the source does not
exist; on POSIX an existing target is silently replaced. -/
def osRename (fs : Fs) (old new : String) : Option Fs :=
  if fsExists fs old then some (new :: ((fs.erase old).erase new)) else none

/-! ## `src/utils/file_utils.py` -/

/-- Characters rejected by `is_valid_filename`. -/
def invalidFilenameChars : List Char := ['<', '>', ':', '"', '/', '\\', '|', '?', '*']

/-- Windows reserved device names. -/
def reservedNames : List String :=
  ["CON", "PRN", "AUX", "NUL",
   "COM1", "COM2", "COM3", "COM4", "COM5", "COM6", "COM7", "COM8", "COM9",
   "LPT1", "LPT2", "LPT3", "LPT4", "LPT5", "LPT6", "LPT7", "LPT8", "LPT9"]

/-- `file_utils.is_valid_filename`. -/
def is_valid_filename (filename : String) : Bool :=
  if filename = "" then false
  else if filename.toList.any (fun c => invalidFilenameChars.contains c) then false
  else if reservedNames.contains (Py.toUpper (Py.splitext filename).1) then false
  else if Py.endsWith filename " " || Py.endsWith filename "." then false
  else true

/-- `file_utils.safe_rename`: re-checks target non-existence and filename
legality, then renames.  `os.makedirs(target_dir, exist_ok=True)` is a no-op
in this flat-path model (directories always exist).  The `OSError` text is
modelled by CPython's message for a missing source, the one failure `osRename`
can produce here. -/
def safe_rename (fs : Fs) (old new : String) : (Bool × Option String) × Fs :=
  if fsExists fs new then
    ((false, some ("Target file already exists: " ++ new)), fs)
  else if ¬ is_valid_filename (Py.basename new) then
    ((false, some ("Invalid filename: " ++ Py.basename new)), fs)
  else
    match osRename fs old new with
    | some fs' => ((true, none), fs')
    | none =>
        ((false, some ("[Errno 2] No such file or directory: " ++ old)), fs)

/-- `file_utils.parse_file_types`. -/
def parse_file_types (s : String) : List String :=
  if s = "" then []
  else ((s.splitOn ",").map Py.strip).filter (fun t => t ≠ "")

/-- Python string comparison `a <= b`: lexicographic by unicode code point. -/
def pyStrLeAux : List Char → List Char → Bool
  | [], _ => true
  | _ :: _, [] => false
  | a :: as, b :: bs =>
    if a.toNat < b.toNat then true
    else if b.toNat < a.toNat then false
    else pyStrLeAux as bs

/-- Python `a <= b` on strings. -/
def pyStrLe (a b : String) : Bool := pyStrLeAux a.toList b.toList

/-- `file_utils.get_files_in_directory` with `recursive=False` (the branch
every claim is about; the `os.walk` branch is unused here).  `os.listdir` and
`os.path.isfile` are external inputs: `dir_exists` models
`os.path.exists(directory)`, `listing` the `os.listdir(directory)` result and
`isfile` the `os.path.isfile` predicate.  Python's `sorted` is a stable
lexicographic sort; every stable sort produces the same list, so it is
modelled by `List.insertionSort` over `pyStrLe`. -/
def get_files_in_directory (directory : String) (dir_exists : Bool)
    (listing : List String) (isfile : String → Bool)
    (file_types : List String) : List String :=
  if directory = "" ∨ dir_exists = false then []
  else
    let file_types_lower := file_types.map (fun ft => Py.strip (Py.toLower ft))
    let files := listing.filterMap (fun filename =>
      let full_path := Py.joinPath directory filename
      if isfile full_path &&
          file_types_lower.any (fun ft => Py.endsWith (Py.toLower filename) ft) then
        some full_path
      else none)
    List.insertionSort (fun a b => pyStrLe a b = true) files

/-! ## `src/core/file_manager.py`: `FileItem` and the per-list operations -/

/-- `FileItem` after `__post_init__`: `directory`, `original_name` (base name,
no extension) and `extension` are derived once from `original_path`. -/
structure FileItem where
  original_path : String
  original_name : String
  new_name : String
  extension : String
  directory : String
deriving Repr, DecidableEq

/-- `FileItem(original_path=p)` followed by `__post_init__`. -/
def FileItem.load (p : String) : FileItem :=
  let base := Py.basename p
  let ne := Py.splitext base
  { original_path := p, original_name := ne.1, new_name := "",
    extension := ne.2, directory := Py.dirname p }

/-- The `FileItem.new_path` property. -/
def FileItem.new_path (f : FileItem) : String :=
  if f.new_name ≠ "" then Py.joinPath f.directory (f.new_name ++ f.extension)
  else f.original_path

/-- `FileManager.apply_text_replacement` (mutates every item's `new_name`). -/
def apply_text_replacement (files : List FileItem)
    (find_text replace_text : String) (case_sensitive : Bool) : List FileItem :=
  if find_text = "" then files
  else files.map (fun f =>
    { f with new_name :=
        if case_sensitive then Py.strReplace f.original_name find_text replace_text
        else Py.strReplaceCI f.original_name find_text replace_text })

/-- `FileManager.apply_prefix_suffix`: note it reads `original_name`, not any
previously staged `new_name`. -/
def apply_prefix_suffix (files : List FileItem) (pfx sfx : String) : List FileItem :=
  files.map (fun f => { f with new_name := pfx ++ f.original_name ++ sfx })

/-- `FileManager.apply_sequential_numbering`. -/
def apply_sequential_numbering (files : List FileItem)
    (start_number : Int) (padding : Int) : List FileItem :=
  files.enum.map (fun p =>
    let number := Py.zfill (toString (start_number + (p.1 : Int))) padding
    let base_name := if p.2.new_name ≠ "" then p.2.new_name else p.2.original_name
    { p.2 with new_name := base_name ++ "_" ++ number })

/-- A date oracle standing for `date_utils.get_date_by_type(path, type, fmt)`,
which reads file metadata (an external effect); `none` models a Python `None`
result. -/
abbrev DateOracle := String → String → String → Option String

/-- `FileManager.apply_date_addition`; the `if date_str:` guard skips both
`None` and the empty string. -/
def apply_date_addition (files : List FileItem)
    (date_type date_format : String) (dates : DateOracle) : List FileItem :=
  files.map (fun f =>
    match dates f.original_path date_type date_format with
    | some d =>
        if d ≠ "" then
          let base_name := if f.new_name ≠ "" then f.new_name else f.original_name
          { f with new_name := base_name ++ "_" ++ d }
        else f
    | none => f)

/-- `FileManager.apply_pattern` (the generator here is total, so the
`except` branch never fires). -/
def apply_pattern (files : List FileItem) (gen : FileItem → Nat → String) : List FileItem :=
  files.enum.map (fun p => { p.2 with new_name := gen p.2 p.1 })

/-- `FileManager.reset_changes`. -/
def reset_changes (files : List FileItem) : List FileItem :=
  files.map (fun f => { f with new_name := "" })

/-- The loop of `FileManager.validate_changes`, threading the `new_names`
set (a list queried by membership). -/
def validateLoop (fs : Fs) : List FileItem → List String → List String
  | [], _ => []
  | f :: rest, seen =>
    if f.new_name = "" then validateLoop fs rest seen
    else
      let new_full_name := f.new_name ++ f.extension
      let dup_errors := if seen.contains new_full_name then
          ["Duplicate filename: " ++ new_full_name] else []
      let seen' := if seen.contains new_full_name then seen else new_full_name :: seen
      let exists_errors :=
        if fsExists fs f.new_path && f.new_path ≠ f.original_path then
          ["Target file already exists: " ++ new_full_name] else []
      dup_errors ++ exists_errors ++ validateLoop fs rest seen'

/-- `FileManager.validate_changes`. -/
def validate_changes (files : List FileItem) (fs : Fs) : List String :=
  validateLoop fs files []

/-- A successfully renamed item: `original_path` becomes the new path,
`original_name` the staged name, and the staged name is cleared
(`directory`/`extension` are not recomputed). -/
def renameUpdate (f : FileItem) : FileItem :=
  { f with original_path := f.new_path, original_name := f.new_name, new_name := "" }

/-- The rename loop of `FileManager.execute_rename`: result is
`(successful_renames, errors, updated file list, filesystem)`.  The progress
callback is a UI effect and not modelled. -/
def executeLoop : List FileItem → Fs → List (String × String) × List String × List FileItem × Fs
  | [], fs => ([], [], [], fs)
  | f :: rest, fs =>
    if f.new_name = "" then
      let r := executeLoop rest fs
      (r.1, r.2.1, f :: r.2.2.1, r.2.2.2)
    else
      let old_path := f.original_path
      let np := f.new_path
      match safe_rename fs old_path np with
      | ((true, _), fs1) =>
          let r := executeLoop rest fs1
          ((old_path, np) :: r.1, r.2.1, renameUpdate f :: r.2.2.1, r.2.2.2)
      | ((false, error_msg), fs1) =>
          let r := executeLoop rest fs1
          (r.1,
           ("Failed to rename " ++ Py.basename old_path ++ ": " ++ error_msg.getD "")
             :: r.2.1,
           f :: r.2.2.1, r.2.2.2)

/-- `FileManager.execute_rename`: validates first, then renames file by
file.  Pairs are recorded as `(old_path, new_path)` — the orientation matters
for the undo bug below. -/
def fmExecuteRename (files : List FileItem) (fs : Fs) :
    List (String × String) × List String × List FileItem × Fs :=
  let validation_errors := validate_changes files fs
  if validation_errors ≠ [] then ([], validation_errors, files, fs)
  else executeLoop files fs

/-! ## `src/utils/validators.py` (the parts the orchestrator calls) -/

/-- `validators.validate_number_input`. -/
def validate_number_input (value : String) (min_value : Int) (max_value : Option Int) :
    Bool × Option String :=
  if Py.strip value = "" then (false, some "Value cannot be empty")
  else
    match Py.parseInt value with
    | some num =>
        if num < min_value then (false, some ("Value must be at least " ++ toString min_value))
        else
          match max_value with
          | some mx =>
              if mx < num then (false, some ("Value must be at most " ++ toString mx))
              else (true, none)
          | none => (true, none)
    | none => (false, some "Value must be a valid number")

/-- `validators.validate_padding_input`. -/
def validate_padding_input (value : String) : Bool × Option String :=
  validate_number_input value 1 (some 10)

/-- `validators.validate_start_number_input`. -/
def validate_start_number_input (value : String) : Bool × Option String :=
  validate_number_input value 0 (some 999999)

/-- `validators.validate_date_format`.  The non-empty case calls
`datetime.now().strftime(fmt)`, an external effect that succeeds for the
formats this program constructs; it is modelled as always succeeding on a
non-empty format (no claim exercises a failing one). -/
def validate_date_format (date_format : String) : Bool × Option String :=
  if date_format = "" then (false, some "Date format cannot be empty")
  else (true, none)

/-- `validators.validate_filename_pattern`.  The invalid-character scan walks
`'<>:"/\|?*'` in order and reports the first offender. -/
def validate_filename_pattern (pat : String) : Bool × Option String :=
  if pat = "" then (false, some "Pattern cannot be empty")
  else
    match invalidFilenameChars.find? (fun c => pat.toList.contains c) with
    | some c =>
        (false, some ("Pattern contains invalid character: " ++ String.mk ['\'', c, '\'']))
    | none =>
        if pat.toList.any (fun c => c.toNat < 32) then
          (false, some "Pattern contains invalid control characters")
        else (true, none)

/-- The `valid_placeholders` list of `validators.validate_pattern_placeholder`. -/
def valid_placeholders : List String := ["\x7bprefix\x7d", "{name}", "{suffix}", "{num}", "{date}"]

/-- `validators.validate_pattern_placeholder`. -/
def validate_pattern_placeholder (placeholder : String) : Bool × Option String :=
  if placeholder = "" then (false, some "Placeholder cannot be empty")
  else if Py.startsWith placeholder "\x7b" && Py.endsWith placeholder "\x7d" then
    if valid_placeholders.contains placeholder then (true, none)
    else (false, some ("Unknown placeholder: " ++ placeholder))
  else validate_filename_pattern placeholder

/-! ## `src/core/pattern_builder.py` -/

/-- `PatternElement`. -/
structure PatternElement where
  type : String
  value : String
  position : Nat
deriving Repr, DecidableEq

/-- `PatternBuilder` state. -/
structure PatternBuilder where
  elements : List PatternElement
deriving Repr, DecidableEq

/-- Element classification used by `set_pattern_from_list` and `add_element`. -/
def elementKind (e : String) : String :=
  if Py.startsWith e "\x7b" && Py.endsWith e "\x7d" then "placeholder" else "text"

/-- The loop of `PatternBuilder.set_pattern_from_list`: `self.elements` was
cleared first, so the resulting state is the accumulated list; an invalid
element stops the loop with `False`, keeping the elements appended so far. -/
def setPatternLoop : List String → Nat → Bool × List PatternElement
  | [], _ => (true, [])
  | e :: rest, i =>
    if (validate_pattern_placeholder e).1 = false then (false, [])
    else
      let r := setPatternLoop rest (i + 1)
      (r.1, { type := elementKind e, value := e, position := i } :: r.2)

/-- `PatternBuilder.set_pattern_from_list`: returns the success flag and the
new state (the old elements are cleared unconditionally). -/
def set_pattern_from_list (pl : List String) : Bool × PatternBuilder :=
  let r := setPatternLoop pl 0
  (r.1, { elements := r.2 })

/-- The default pattern installed by `PatternBuilder.__init__` /
`_reset_to_default` (all five defaults are valid placeholders). -/
def defaultPatternBuilder : PatternBuilder :=
  (set_pattern_from_list ["\x7bprefix\x7d", "{name}", "{suffix}", "{num}", "{date}"]).2

/-- `PatternBuilder.validate_pattern`. -/
def PatternBuilder.validate_pattern (pb : PatternBuilder) : Bool × Option String :=
  if pb.elements = [] then (false, some "Pattern cannot be empty")
  else if pb.elements.any (fun e => e.type = "placeholder" || Py.strip e.value ≠ "") then
    (true, none)
  else (false, some "Pattern must contain at least one placeholder or text")

/-- The placeholder-value map built by `generate_filename`: `values.get(k, '')`
over the dict `{prefix, suffix, num, date}` passed in, with `name` bound to
the original base name. -/
structure PatternValues where
  pfx : String
  sfx : String
  num : String
  date : String
deriving Repr, DecidableEq

/-- `default_values.get(placeholder_name, '')` in `generate_filename`. -/
def lookupValue (values : PatternValues) (original_name : String) : String → String
  | "prefix" => values.pfx
  | "name" => original_name
  | "suffix" => values.sfx
  | "num" => values.num
  | "date" => values.date
  | _ => ""

/-- `element.value[1:-1]`: strip the first and last character. -/
def innerName (v : String) : String := String.mk (v.toList.drop 1).dropLast

/-- The `filename_parts` loop of `generate_filename`: placeholder values are
appended only when non-empty, text elements always. -/
def buildParts (els : List PatternElement) (values : PatternValues)
    (original_name : String) : List String :=
  match els with
  | [] => []
  | e :: rest =>
      (if e.type = "placeholder" then
        (let v := lookupValue values original_name (innerName e.value)
         if v ≠ "" then [v] else [])
      else [e.value]) ++ buildParts rest values original_name

/-- `re.sub(r'[-_\s]+', lambda m: m.group()[0], filename)`: the separator
class of the regex. -/
def isSepChar (c : Char) : Bool := c = '-' || c = '_' || Py.isSpaceChar c

/-- The regex substitution itself: each maximal run of separator characters
is replaced by its first character. -/
def collapseRuns : List Char → Bool → List Char
  | [], _ => []
  | c :: rest, dropping =>
    if isSepChar c then
      if dropping then collapseRuns rest true
      else c :: collapseRuns rest true
    else c :: collapseRuns rest false

/-- Python `str.strip('-_ ')`: strip those three characters from both ends. -/
def stripSeps (s : String) : String :=
  let mem := fun c => c = '-' || c = '_' || c = ' '
  String.mk (((s.toList.dropWhile mem).reverse.dropWhile mem).reverse)

/-- `PatternBuilder.generate_filename`. -/
def PatternBuilder.generate_filename (pb : PatternBuilder) (original_name : String)
    (values : PatternValues) (extension : String) : String :=
  let ext := if extension ≠ "" && ¬ Py.startsWith extension "." then "." ++ extension
             else extension
  let filename := String.join (buildParts pb.elements values original_name)
  let filename := String.mk (collapseRuns filename.toList false)
  let filename := stripSeps filename
  let filename := if filename = "" then
      (if original_name ≠ "" then original_name else "unnamed")
    else filename
  filename ++ ext

/-! ## `src/core/renamer.py` -/

/-- `RenameOperation` (the Python fields `prefix`/`suffix` are `pfx`/`sfx`
here; `prefix` is reserved syntax in Lean). -/
structure RenameOperation where
  pfx : String
  sfx : String
  add_numbers : Bool
  start_number : Int
  padding : Int
  find_text : String
  replace_text : String
  case_sensitive : Bool
  add_date : Bool
  date_type : String
  date_format : String
  use_pattern : Bool
  pattern_builder : PatternBuilder
deriving Repr, DecidableEq

/-- The defaults of `RenameOperation.__init__`. -/
def defaultOperation : RenameOperation :=
  { pfx := "", sfx := "", add_numbers := false, start_number := 1, padding := 3,
    find_text := "", replace_text := "", case_sensitive := true,
    add_date := false, date_type := "creation", date_format := "%Y-%m-%d",
    use_pattern := false, pattern_builder := defaultPatternBuilder }

/-- `RenameOperation.validate`. -/
def RenameOperation.validate (op : RenameOperation) : Bool × List String :=
  let number_errors :=
    if op.add_numbers then
      (match validate_start_number_input (toString op.start_number) with
       | (true, _) => []
       | (false, m) => ["Start number: " ++ m.getD ""]) ++
      (match validate_padding_input (toString op.padding) with
       | (true, _) => []
       | (false, m) => ["Padding: " ++ m.getD ""])
    else []
  let date_errors :=
    if op.add_date then
      match validate_date_format op.date_format with
      | (true, _) => []
      | (false, m) => ["Date format: " ++ m.getD ""]
    else []
  let pattern_errors :=
    if op.use_pattern then
      match op.pattern_builder.validate_pattern with
      | (true, _) => []
      | (false, m) => ["Pattern: " ++ m.getD ""]
    else []
  let errors := number_errors ++ date_errors ++ pattern_errors
  (errors.isEmpty, errors)

/-- `BulkRenamer` state: the owned file list, the configured operation and
the undo stack (most recent batch at the END, matching `list.append`/`pop`). -/
structure BulkRenamer where
  files : List FileItem
  operation : RenameOperation
  undo_stack : List (List (String × String))
deriving Repr, DecidableEq

/-- `BulkRenamer.__init__` (with an already-loaded file list). -/
def mkBulkRenamer (files : List FileItem) : BulkRenamer :=
  { files := files, operation := defaultOperation, undo_stack := [] }

/-- Python truthiness of the `pattern_elements` argument: a non-`None`,
non-empty list. -/
def patternElementsTruthy : Option (List String) → Bool
  | some (_ :: _) => true
  | _ => false

/-- `BulkRenamer.configure_operation`: stores every field unconditionally,
optionally replaces the pattern (ignoring `set_pattern_from_list`'s result),
then validates the stored operation.  `if use_pattern and pattern_elements:`
is Python truthiness. -/
def configure_operation (br : BulkRenamer)
    (pfx sfx : String) (add_numbers : Bool) (start_number padding : Int)
    (find_text replace_text : String) (case_sensitive : Bool)
    (add_date : Bool) (date_type date_format : String)
    (use_pattern : Bool) (pattern_elements : Option (List String)) :
    (Bool × List String) × BulkRenamer :=
  let pb :=
    if use_pattern && patternElementsTruthy pattern_elements then
      (set_pattern_from_list (pattern_elements.getD [])).2
    else br.operation.pattern_builder
  let op : RenameOperation :=
    { pfx := pfx, sfx := sfx, add_numbers := add_numbers,
      start_number := start_number, padding := padding,
      find_text := find_text, replace_text := replace_text,
      case_sensitive := case_sensitive, add_date := add_date,
      date_type := date_type, date_format := date_format,
      use_pattern := use_pattern, pattern_builder := pb }
  (op.validate, { br with operation := op })

/-- `BulkRenamer._apply_standard_operations`. -/
def apply_standard_operations (op : RenameOperation) (dates : DateOracle)
    (files : List FileItem) : List FileItem :=
  let files := if op.find_text ≠ "" then
      apply_text_replacement files op.find_text op.replace_text op.case_sensitive
    else files
  let files := if op.pfx ≠ "" ∨ op.sfx ≠ "" then
      apply_prefix_suffix files op.pfx op.sfx
    else files
  let files := if op.add_numbers then
      apply_sequential_numbering files op.start_number op.padding
    else files
  let files := if op.add_date then
      apply_date_addition files op.date_type op.date_format dates
    else files
  files

/-- The `pattern_generator` closure of `BulkRenamer._apply_pattern_operation`. -/
def patternGenerator (op : RenameOperation) (dates : DateOracle)
    (f : FileItem) (index : Nat) : String :=
  let values : PatternValues :=
    { pfx := op.pfx, sfx := op.sfx,
      num := if op.add_numbers then
          Py.zfill (toString (op.start_number + (index : Int))) op.padding
        else "",
      date := if op.add_date then
          (dates f.original_path op.date_type op.date_format).getD ""
        else "" }
  let original_name :=
    if op.find_text ≠ "" then
      if op.case_sensitive then Py.strReplace f.original_name op.find_text op.replace_text
      else Py.strReplaceCI f.original_name op.find_text op.replace_text
    else f.original_name
  op.pattern_builder.generate_filename original_name values ""

/-- `BulkRenamer._apply_pattern_operation`. -/
def apply_pattern_operation (op : RenameOperation) (dates : DateOracle)
    (files : List FileItem) : List FileItem :=
  apply_pattern files (patternGenerator op dates)

/-- `BulkRenamer._apply_operation`. -/
def apply_operation (op : RenameOperation) (dates : DateOracle)
    (files : List FileItem) : List FileItem :=
  if op.use_pattern then apply_pattern_operation op dates files
  else apply_standard_operations op dates files

/-- `BulkRenamer.preview_changes`, up to the staged file list: reset all
pending names, then apply the configured operation. -/
def preview_stage (op : RenameOperation) (dates : DateOracle)
    (files : List FileItem) : List FileItem :=
  apply_operation op dates (reset_changes files)

/-- Lines 322-326 of `renamer.py`: append the batch when non-empty, then
evict the oldest entry if the stack exceeds 10. -/
def push_undo (stack : List (List (String × String)))
    (successful_renames : List (String × String)) : List (List (String × String)) :=
  if successful_renames ≠ [] then
    let s := stack ++ [successful_renames]
    if s.length > 10 then s.drop 1 else s
  else stack

/-- `BulkRenamer.execute_rename`: preview (stages the names), validate,
execute, push the batch.  Result: `((success, errors, files_renamed),
new state, new filesystem)`. -/
def BulkRenamer.execute_rename (br : BulkRenamer) (dates : DateOracle) (fs : Fs) :
    (Bool × List String × Nat) × BulkRenamer × Fs :=
  let staged := preview_stage br.operation dates br.files
  let validation_errors := validate_changes staged fs
  if validation_errors ≠ [] then
    ((false, validation_errors, 0), { br with files := staged }, fs)
  else
    let r := fmExecuteRename staged fs
    let successful_renames := r.1
    let errors := r.2.1
    ((errors = [], errors, successful_renames.length),
     { br with files := r.2.2.1, undo_stack := push_undo br.undo_stack successful_renames },
     r.2.2.2)

/-- The reversal loop of `BulkRenamer.undo_last_rename`, over the pairs in
reverse insertion order.  The loop header `for new_path, old_path in
reversed(last_operation)` unpacks each stored pair's FIRST component as
`new_path` — although `FileManager.execute_rename` stored `(old_path,
new_path)`.  The embedding reproduces that unpacking exactly. -/
def undoPairsLoop : List (String × String) → Fs → List String × Fs
  | [], fs => ([], fs)
  | pair :: rest, fs =>
    let new_path := pair.1
    let old_path := pair.2
    if fsExists fs new_path then
      match osRename fs new_path old_path with
      | some fs1 =>
          let r := undoPairsLoop rest fs1
          (r.1, r.2)
      | none =>
          let r := undoPairsLoop rest fs
          (("Could not undo rename for " ++ new_path) :: r.1, r.2)
    else
      let r := undoPairsLoop rest fs
      (("File not found: " ++ new_path) :: r.1, r.2)

/-- `BulkRenamer.undo_last_rename`.  The popped batch is consumed whether or
not errors occur; the final `self.load_files()` re-scan of the directory (a
pure refresh of `files` from disk) is external input and left to the caller,
so `files` is unchanged here. -/
def BulkRenamer.undo_last_rename (br : BulkRenamer) (fs : Fs) :
    (Bool × Option String) × BulkRenamer × Fs :=
  match br.undo_stack.getLast? with
  | none => ((false, some "No operations to undo"), br, fs)
  | some last_operation =>
    let br' := { br with undo_stack := br.undo_stack.dropLast }
    let r := undoPairsLoop last_operation.reverse fs
    if r.1 ≠ [] then
      ((false, some (String.intercalate "; " r.1)), br', r.2)
    else
      ((true, none), br', r.2)

/-- One orchestrator step, for stating stack invariants over arbitrary
sequences of execute/undo calls. -/
inductive StackOp where
  | exec (dates : DateOracle)
  | undo

/-- Run a sequence of execute/undo operations. -/
def runStackOps : List StackOp → BulkRenamer → Fs → BulkRenamer × Fs
  | [], br, fs => (br, fs)
  | StackOp.exec dates :: rest, br, fs =>
      let r := br.execute_rename dates fs
      runStackOps rest r.2.1 r.2.2
  | StackOp.undo :: rest, br, fs =>
      let r := br.undo_last_rename fs
      runStackOps rest r.2.1 r.2.2

/-! ## General helper lemmas -/

/-- Enumerating a mapped list enumerates the original and maps the values. -/
theorem enumFrom_map_commute {α β : Type} (f : α → β) :
    ∀ (l : List α) (n : Nat),
      (l.map f).enumFrom n = (l.enumFrom n).map (fun p => (p.1, f p.2))
  | [], _ => rfl
  | x :: xs, n => by
      simp only [List.map_cons, List.enumFrom_cons]
      exact congrArg _ (enumFrom_map_commute f xs (n + 1))

/-- `enum` version of `enumFrom_map_commute`. -/
theorem enum_map_commute {α β : Type} (f : α → β) (l : List α) :
    (l.map f).enum = l.enum.map (fun p => (p.1, f p.2)) :=
  enumFrom_map_commute f l 0

/-! ## C5: the two validation checks -/

/-- Transcription of the C5 claim: walking the pending renames in order, a
file whose extension-inclusive final name was already proposed by an EARLIER
pending file (the first proposer wins) yields one duplicate error, and a
proposed path colliding with an existing on-disk file yields a target-exists
error unless it is the entity's own original path. -/
def spec_validate_aux (fs : Fs) (prior : List FileItem) : List FileItem → List String
  | [] => []
  | f :: rest =>
    if f.new_name = "" then spec_validate_aux fs (prior ++ [f]) rest
    else
      (if ∃ g ∈ prior, g.new_name ≠ "" ∧ g.new_name ++ g.extension = f.new_name ++ f.extension
       then ["Duplicate filename: " ++ (f.new_name ++ f.extension)] else [])
      ++ (if fsExists fs f.new_path && f.new_path ≠ f.original_path
          then ["Target file already exists: " ++ (f.new_name ++ f.extension)] else [])
      ++ spec_validate_aux fs (prior ++ [f]) rest

/-- The claim-level validation: no earlier proposers at the start. -/
def spec_validate (files : List FileItem) (fs : Fs) : List String :=
  spec_validate_aux fs [] files

/-- The seen-name set of `validate_changes` holds exactly the final names of
earlier pending files. -/
theorem validateLoop_eq_spec_aux (fs : Fs) :
    ∀ (files prior : List FileItem) (seen : List String),
      (∀ s, seen.contains s = true ↔
        ∃ g ∈ prior, g.new_name ≠ "" ∧ g.new_name ++ g.extension = s) →
      validateLoop fs files seen = spec_validate_aux fs prior files := by
  intro files
  induction files with
  | nil => intro prior seen _; rfl
  | cons f rest ih =>
    intro prior seen hinv
    by_cases hn : f.new_name = ""
    · rw [validateLoop, spec_validate_aux, if_pos hn, if_pos hn]
      refine ih (prior ++ [f]) seen (fun s => ?_)
      rw [hinv s]
      constructor
      · rintro ⟨g, hg, h1, h2⟩; exact ⟨g, by simp [List.mem_append, hg], h1, h2⟩
      · rintro ⟨g, hg, h1, h2⟩
        rcases List.mem_append.mp hg with hg' | hg'
        · exact ⟨g, hg', h1, h2⟩
        · rcases List.mem_singleton.mp hg' with rfl
          exact absurd hn h1
    · have hiff := hinv (f.new_name ++ f.extension)
      by_cases hdup : seen.contains (f.new_name ++ f.extension) = true
      · have hrec : validateLoop fs rest seen = spec_validate_aux fs (prior ++ [f]) rest := by
          refine ih (prior ++ [f]) seen (fun s => ?_)
          rw [hinv s]
          constructor
          · rintro ⟨g, hg, h1, h2⟩; exact ⟨g, by simp [List.mem_append, hg], h1, h2⟩
          · rintro ⟨g, hg, h1, h2⟩
            rcases List.mem_append.mp hg with hg' | hg'
            · exact ⟨g, hg', h1, h2⟩
            · rcases List.mem_singleton.mp hg' with rfl
              exact h2 ▸ hiff.mp hdup
        simp only [validateLoop, spec_validate_aux, if_neg hn, hdup, if_pos (hiff.mp hdup),
          if_true, hrec, List.append_assoc]
      · have hrec : validateLoop fs rest ((f.new_name ++ f.extension) :: seen) =
            spec_validate_aux fs (prior ++ [f]) rest := by
          refine ih (prior ++ [f]) ((f.new_name ++ f.extension) :: seen) (fun s => ?_)
          constructor
          · intro hc
            have hc' : s = f.new_name ++ f.extension ∨ seen.contains s = true := by
              simpa [List.contains_cons] using hc
            rcases hc' with h | h
            · refine ⟨f, by simp [List.mem_append], hn, h.symm⟩
            · rcases (hinv s).mp h with ⟨g, hg, h1, h2⟩
              exact ⟨g, by simp [List.mem_append, hg], h1, h2⟩
          · rintro ⟨g, hg, h1, h2⟩
            rcases List.mem_append.mp hg with hg' | hg'
            · have hsc := (hinv s).mpr ⟨g, hg', h1, h2⟩
              simp only [List.contains_cons, Bool.or_eq_true]
              exact Or.inr hsc
            · rcases List.mem_singleton.mp hg' with rfl
              simp [List.contains_cons, ← h2]
        have hdup' : seen.contains (f.new_name ++ f.extension) = false := by
          simpa using hdup
        simp only [validateLoop, spec_validate_aux, if_neg hn, hdup', Bool.false_eq_true,
          if_false, if_neg (fun hx => hdup (hiff.mpr hx)), hrec, List.append_assoc]

/-- Concrete C5 scenario: two files whose pending names both render "a.jpg". -/
def c5Files : List FileItem :=
  [{ original_path := "d/x.jpg", original_name := "x", new_name := "a",
     extension := ".jpg", directory := "d" },
   { original_path := "d/y.jpg", original_name := "y", new_name := "a",
     extension := ".jpg", directory := "d" }]

/-- C5: validation performs exactly the two claimed checks — the duplicate
check (first proposer wins, each later proposer of the same extension-inclusive
name errors once) and the target-exists check exempting the entity's own
original path — and nothing else; concretely, two files both mapping to
"a.jpg" yield exactly one duplicate error naming "a.jpg". -/
theorem c5_validate_two_checks :
    (∀ (files : List FileItem) (fs : Fs),
      validate_changes files fs = spec_validate files fs) ∧
    validate_changes c5Files ["d/x.jpg", "d/y.jpg"] = ["Duplicate filename: a.jpg"] := by
  constructor
  · intro files fs
    refine validateLoop_eq_spec_aux fs files [] [] (fun s => ?_)
    simp
  · decide

/-! ## C1: execute followed by undo (the stored-pair orientation bug) -/

/-- The date oracle for scenarios with date-stamping disabled. -/
def noDates : DateOracle := fun _ _ _ => none

/-- C1 scenario: one file `d/a.jpg`, configured find/replace `a -> b`. -/
def c1Renamer : BulkRenamer :=
  { mkBulkRenamer [FileItem.load "d/a.jpg"] with
    operation := { defaultOperation with find_text := "a", replace_text := "b" } }

/-- C1: the failing run.  `execute_rename` succeeds and renames `d/a.jpg` to
`d/b.jpg`, recording the batch as the `(old_path, new_path)` pair
`("d/a.jpg", "d/b.jpg")`.  The immediately following `undo_last_rename`
unpacks that pair as `(new_path, old_path)`, looks for the vacated path
`d/a.jpg`, reports `File not found: d/a.jpg`, leaves the filesystem at
`d/b.jpg` (nothing is restored), and still consumes the batch. -/
theorem c1_undo_restores_nothing :
    (c1Renamer.execute_rename noDates ["d/a.jpg"]).1 = (true, [], 1) ∧
    (c1Renamer.execute_rename noDates ["d/a.jpg"]).2.2 = ["d/b.jpg"] ∧
    (c1Renamer.execute_rename noDates ["d/a.jpg"]).2.1.undo_stack
      = [[("d/a.jpg", "d/b.jpg")]] ∧
    ((c1Renamer.execute_rename noDates ["d/a.jpg"]).2.1.undo_last_rename
        (c1Renamer.execute_rename noDates ["d/a.jpg"]).2.2).1
      = (false, some "File not found: d/a.jpg") ∧
    ((c1Renamer.execute_rename noDates ["d/a.jpg"]).2.1.undo_last_rename
        (c1Renamer.execute_rename noDates ["d/a.jpg"]).2.2).2.2 = ["d/b.jpg"] ∧
    ((c1Renamer.execute_rename noDates ["d/a.jpg"]).2.1.undo_last_rename
        (c1Renamer.execute_rename noDates ["d/a.jpg"]).2.2).2.1.undo_stack = [] := by
  refine ⟨?_, ?_, ?_, ?_, ?_, ?_⟩ <;> decide

/-! ## C10: a no-op rename passes validation but fails at execution -/

/-- C10: a loaded file whose pending name equals its original base name (so
its proposed path is its own on-disk path) draws no validation error, yet
`execute_rename` reports a per-file "Target file already exists" error for it
and leaves both the entity and the filesystem unchanged, because
`safe_rename`'s pre-rename existence check does not exempt the file's own
path. -/
theorem c10_noop_rename_fails_at_execute :
    ∀ (dir nm ext : String) (fs : Fs),
      nm ≠ "" →
      fsExists fs (Py.joinPath dir (nm ++ ext)) = true →
      validate_changes
        [{ original_path := Py.joinPath dir (nm ++ ext), original_name := nm,
           new_name := nm, extension := ext, directory := dir }] fs = [] ∧
      fmExecuteRename
        [{ original_path := Py.joinPath dir (nm ++ ext), original_name := nm,
           new_name := nm, extension := ext, directory := dir }] fs =
      ([],
       ["Failed to rename " ++ Py.basename (Py.joinPath dir (nm ++ ext)) ++ ": " ++
          ("Target file already exists: " ++ Py.joinPath dir (nm ++ ext))],
       [{ original_path := Py.joinPath dir (nm ++ ext), original_name := nm,
          new_name := nm, extension := ext, directory := dir }], fs) := by
  intro dir nm ext fs hn hex
  have hval : validate_changes
      [{ original_path := Py.joinPath dir (nm ++ ext), original_name := nm,
         new_name := nm, extension := ext, directory := dir }] fs = [] := by
    simp [validate_changes, validateLoop, FileItem.new_path, hn]
  refine ⟨hval, ?_⟩
  rw [fmExecuteRename, if_neg (by simp [hval])]
  simp [executeLoop, FileItem.new_path, hn, safe_rename, hex]

/-- C10 witness: directory `d`, file `a.jpg`, pending name `a`. -/
theorem c10_witness :
    ("a" : String) ≠ "" ∧ fsExists ["d/a.jpg"] (Py.joinPath "d" ("a" ++ ".jpg")) = true ∧
    (validate_changes
        [{ original_path := Py.joinPath "d" ("a" ++ ".jpg"), original_name := "a",
           new_name := "a", extension := ".jpg", directory := "d" }] ["d/a.jpg"] = [] ∧
      fmExecuteRename
        [{ original_path := Py.joinPath "d" ("a" ++ ".jpg"), original_name := "a",
           new_name := "a", extension := ".jpg", directory := "d" }] ["d/a.jpg"] =
      ([],
       ["Failed to rename " ++ Py.basename (Py.joinPath "d" ("a" ++ ".jpg")) ++ ": " ++
          ("Target file already exists: " ++ Py.joinPath "d" ("a" ++ ".jpg"))],
       [{ original_path := Py.joinPath "d" ("a" ++ ".jpg"), original_name := "a",
          new_name := "a", extension := ".jpg", directory := "d" }], ["d/a.jpg"])) :=
  ⟨by decide, by decide,
   c10_noop_rename_fails_at_execute "d" "a" ".jpg" ["d/a.jpg"] (by decide) (by decide)⟩

/-- `pyStrLeAux` is total. -/
theorem pyStrLeAux_total : ∀ xs ys, pyStrLeAux xs ys = true ∨ pyStrLeAux ys xs = true
  | [], _ => Or.inl rfl
  | _ :: _, [] => Or.inr rfl
  | x :: xs, y :: ys => by
    by_cases h1 : x.toNat < y.toNat
    · left; simp [pyStrLeAux, h1]
    · by_cases h2 : y.toNat < x.toNat
      · right; simp [pyStrLeAux, h2]
      · have h := pyStrLeAux_total xs ys
        rcases h with h | h
        · left; simpa [pyStrLeAux, h1, h2] using h
        · right; simpa [pyStrLeAux, h1, h2] using h

/-- `pyStrLeAux` is transitive. -/
theorem pyStrLeAux_trans : ∀ xs ys zs, pyStrLeAux xs ys = true →
    pyStrLeAux ys zs = true → pyStrLeAux xs zs = true
  | [], _, _, _, _ => rfl
  | _ :: _, [], _, hxy, _ => by simp [pyStrLeAux] at hxy
  | _ :: _, _ :: _, [], _, hyz => by simp [pyStrLeAux] at hyz
  | x :: xs, y :: ys, z :: zs, hxy, hyz => by
    by_cases h1 : x.toNat < y.toNat <;> by_cases h2 : y.toNat < x.toNat <;>
      by_cases h3 : y.toNat < z.toNat <;> by_cases h4 : z.toNat < y.toNat <;>
        simp [pyStrLeAux, h1, h2, h3, h4] at hxy hyz ⊢ <;>
          first
          | omega
          | exact pyStrLeAux_trans xs ys zs hxy hyz
          | exact Or.inr ⟨by omega, pyStrLeAux_trans xs ys zs hxy hyz⟩

instance : IsTotal String (fun a b => pyStrLe a b = true) :=
  ⟨fun a b => pyStrLeAux_total a.toList b.toList⟩

instance : IsTrans String (fun a b => pyStrLe a b = true) :=
  ⟨fun a b c => pyStrLeAux_trans a.toList b.toList c.toList⟩

/-! ## C8: sequential numbering -/

/-- Transcription of the C8 claim for one file: `str(start + i)` zero-padded to
the configured width, joined to the current name (the staged name if any,
otherwise the original base name) with an underscore. -/
def spec_numbered_name (f : FileItem) (s p : Int) (i : Nat) : String :=
  (if f.new_name ≠ "" then f.new_name else f.original_name) ++ "_" ++
    Py.zfill (toString (s + (i : Int))) p

/-- C8: the i-th loaded file (zero-based) receives exactly the claimed
number suffix. -/
theorem c8_sequential_numbering (files : List FileItem) (s p : Int) (i : Nat)
    (f : FileItem) (h : files[i]? = some f) :
    (apply_sequential_numbering files s p)[i]? =
      some { f with new_name := spec_numbered_name f s p i } := by
  simp only [apply_sequential_numbering, List.enum, List.getElem?_map,
    List.getElem?_enumFrom, h, Option.map_some, Nat.zero_add, spec_numbered_name]
  rfl

/-- Three freshly loaded files for the C8 witness. -/
def c8Files : List FileItem :=
  [FileItem.load "d/f1.jpg", FileItem.load "d/f2.jpg", FileItem.load "d/f3.jpg"]

/-- C8 witness: `start=5, padding=2` over 3 files yields the suffixes
"05", "06", "07" in load order. -/
theorem c8_witness :
    (c8Files[0]? = some (FileItem.load "d/f1.jpg") ∧
     c8Files[1]? = some (FileItem.load "d/f2.jpg") ∧
     c8Files[2]? = some (FileItem.load "d/f3.jpg")) ∧
    (apply_sequential_numbering c8Files 5 2)[0]? =
      some { original_path := "d/f1.jpg", original_name := "f1", new_name := "f1_05",
             extension := ".jpg", directory := "d" } ∧
    (apply_sequential_numbering c8Files 5 2)[1]? =
      some { original_path := "d/f2.jpg", original_name := "f2", new_name := "f2_06",
             extension := ".jpg", directory := "d" } ∧
    (apply_sequential_numbering c8Files 5 2)[2]? =
      some { original_path := "d/f3.jpg", original_name := "f3", new_name := "f3_07",
             extension := ".jpg", directory := "d" } :=
  ⟨⟨by decide, by decide, by decide⟩,
   (c8_sequential_numbering c8Files 5 2 0 (FileItem.load "d/f1.jpg") (by decide)).trans
     (by decide),
   (c8_sequential_numbering c8Files 5 2 1 (FileItem.load "d/f2.jpg") (by decide)).trans
     (by decide),
   (c8_sequential_numbering c8Files 5 2 2 (FileItem.load "d/f3.jpg") (by decide)).trans
     (by decide)⟩

/-! ## C9: non-recursive directory scan -/

/-- C9: a non-recursive scan returns only direct-child regular files — every
returned path is `directory/name` for a directory entry `name` that is a
regular file with a matching extension (so never a file from a subdirectory)
— and the result is sorted lexicographically by full path. -/
theorem c9_scan_direct_children_sorted (directory : String) (dir_exists : Bool)
    (listing : List String) (isfile : String → Bool) (file_types : List String) :
    (∀ p ∈ get_files_in_directory directory dir_exists listing isfile file_types,
       ∃ n ∈ listing, p = Py.joinPath directory n ∧ isfile p = true ∧
         (file_types.map (fun ft => Py.strip (Py.toLower ft))).any
           (fun ft => Py.endsWith (Py.toLower n) ft) = true) ∧
    List.Sorted (fun a b => pyStrLe a b = true)
      (get_files_in_directory directory dir_exists listing isfile file_types) := by
  rw [get_files_in_directory]
  by_cases hguard : directory = "" ∨ dir_exists = false
  · rw [if_pos hguard]
    exact ⟨fun p hp => absurd hp (List.not_mem_nil p), List.sorted_nil⟩
  · rw [if_neg hguard]
    constructor
    · intro p hp
      have hp' : p ∈ listing.filterMap _ := (List.mem_insertionSort _).mp hp
      rcases List.mem_filterMap.mp hp' with ⟨n, hn, hsome⟩
      by_cases hcond : (isfile (Py.joinPath directory n) &&
          (file_types.map (fun ft => Py.strip (Py.toLower ft))).any
            (fun ft => Py.endsWith (Py.toLower n) ft)) = true
      · rw [if_pos hcond] at hsome
        rcases Option.some.injEq .. ▸ hsome with rfl
        rcases Bool.and_eq_true .. ▸ hcond with ⟨h1, h2⟩
        exact ⟨n, hn, rfl, h1, h2⟩
      · rw [if_neg hcond] at hsome
        exact absurd hsome (by simp)
    · exact List.sorted_insertionSort _ _

/-- The directory listing for the C9 witness: a subdirectory entry `sub` and
two regular files, listed unsorted. -/
def c9Listing : List String := ["sub", "b.jpg", "a.jpg"]

/-- The `os.path.isfile` predicate for the C9 witness: only the two direct
children are regular files (`d/sub` is a directory). -/
def c9IsFile : String → Bool := fun p => (["d/a.jpg", "d/b.jpg"] : List String).contains p

/-- C9 witness: the scan of `d` returns `d/a.jpg` as a direct child and the
result is sorted. -/
theorem c9_witness :
    ("d/a.jpg" ∈ get_files_in_directory "d" true c9Listing c9IsFile [".jpg"] ∧
      ∃ n ∈ c9Listing, "d/a.jpg" = Py.joinPath "d" n ∧ c9IsFile "d/a.jpg" = true ∧
        (([".jpg"].map (fun ft => Py.strip (Py.toLower ft))).any
          (fun ft => Py.endsWith (Py.toLower n) ft)) = true) ∧
    List.Sorted (fun a b => pyStrLe a b = true)
      (get_files_in_directory "d" true c9Listing c9IsFile [".jpg"]) :=
  ⟨⟨by decide,
    (c9_scan_direct_children_sorted "d" true c9Listing c9IsFile [".jpg"]).1
      "d/a.jpg" (by decide)⟩,
   (c9_scan_direct_children_sorted "d" true c9Listing c9IsFile [".jpg"]).2⟩

/-! ## C7: the undo stack is a bounded LIFO -/

/-- Pushing onto the undo stack preserves the depth bound. -/
theorem push_undo_length_le {stack : List (List (String × String))}
    (h : stack.length ≤ 10) (pairs : List (String × String)) :
    (push_undo stack pairs).length ≤ 10 := by
  unfold push_undo
  split
  · dsimp only
    split
    · simp only [List.length_drop, List.length_append, List.length_singleton]
      omega
    · next hle =>
      simp only [gt_iff_lt, not_lt, List.length_append, List.length_singleton] at hle ⊢
      omega
  · exact h

/-- One `execute_rename` call preserves the depth bound. -/
theorem execute_stack_le (br : BulkRenamer) (d : DateOracle) (fs : Fs)
    (h : br.undo_stack.length ≤ 10) :
    (br.execute_rename d fs).2.1.undo_stack.length ≤ 10 := by
  simp only [BulkRenamer.execute_rename]
  split
  · exact h
  · exact push_undo_length_le h _

/-- One `undo_last_rename` call preserves the depth bound. -/
theorem undo_stack_le (br : BulkRenamer) (fs : Fs)
    (h : br.undo_stack.length ≤ 10) :
    (br.undo_last_rename fs).2.1.undo_stack.length ≤ 10 := by
  simp only [BulkRenamer.undo_last_rename]
  split
  · exact h
  · split
    · simp only [List.length_dropLast]; omega
    · simp only [List.length_dropLast]; omega

/-- The depth bound holds after any sequence of execute/undo operations. -/
theorem runStackOps_le : ∀ (ops : List StackOp) (br : BulkRenamer) (fs : Fs),
    br.undo_stack.length ≤ 10 → ((runStackOps ops br fs).1.undo_stack.length ≤ 10)
  | [], _, _, h => h
  | StackOp.exec d :: rest, br, fs, h =>
      runStackOps_le rest _ _ (execute_stack_le br d fs h)
  | StackOp.undo :: rest, br, fs, h =>
      runStackOps_le rest _ _ (undo_stack_le br fs h)

/-- C7: the undo stack is a bounded LIFO — (a) any sequence of execute/undo
operations keeps at most 10 batches; (b) pushing an 11th batch evicts the
oldest first; (c) undo consumes exactly the most recently pushed batch,
reversing that batch alone. -/
theorem c7_undo_stack_bounded_lifo :
    (∀ (ops : List StackOp) (br : BulkRenamer) (fs : Fs),
       br.undo_stack.length ≤ 10 → ((runStackOps ops br fs).1.undo_stack.length ≤ 10)) ∧
    (∀ (stack : List (List (String × String))) (pairs : List (String × String)),
       stack.length = 10 → pairs ≠ [] →
       push_undo stack pairs = stack.drop 1 ++ [pairs]) ∧
    (∀ (br : BulkRenamer) (fs : Fs) (s : List (List (String × String)))
       (b : List (String × String)), br.undo_stack = s ++ [b] →
       (br.undo_last_rename fs).2.1.undo_stack = s ∧
       (br.undo_last_rename fs).2.2 = (undoPairsLoop b.reverse fs).2) := by
  refine ⟨runStackOps_le, ?_, ?_⟩
  · intro stack pairs hlen hp
    have hgt : (stack ++ [pairs]).length > 10 := by simp [hlen]
    simp only [push_undo, if_pos hp, if_pos hgt]
    exact List.drop_append_of_le_length (by omega)
  · intro br fs s b hstack
    have hlast : br.undo_stack.getLast? = some b := by
      rw [hstack]; exact List.getLast?_concat _
    have hdrop : br.undo_stack.dropLast = s := by
      rw [hstack]; exact List.dropLast_concat ..
    simp only [BulkRenamer.undo_last_rename, hlast, hdrop]
    split <;> exact ⟨rfl, rfl⟩

/-- C7 witness: the three parts at concrete inputs — an undo on an empty
stack keeps the bound, a push onto a full 10-deep stack evicts the oldest,
and an undo on a one-batch stack consumes that batch. -/
theorem c7_witness :
    ((mkBulkRenamer []).undo_stack.length ≤ 10 ∧
     (runStackOps [StackOp.undo] (mkBulkRenamer []) []).1.undo_stack.length ≤ 10) ∧
    ((List.replicate 10 [(("a" : String), ("b" : String))]).length = 10 ∧
     ([(("x" : String), ("y" : String))] : List (String × String)) ≠ [] ∧
     push_undo (List.replicate 10 [("a", "b")]) [("x", "y")] =
       (List.replicate 10 [(("a" : String), ("b" : String))]).drop 1 ++ [[("x", "y")]]) ∧
    ({ mkBulkRenamer [] with undo_stack := [[("p", "q")]] }.undo_stack
       = [] ++ [[(("p" : String), ("q" : String))]] ∧
     ({ mkBulkRenamer [] with
        undo_stack := [[("p", "q")]] }.undo_last_rename []).2.1.undo_stack = [] ∧
     ({ mkBulkRenamer [] with undo_stack := [[("p", "q")]] }.undo_last_rename []).2.2 =
       (undoPairsLoop [(("p" : String), ("q" : String))].reverse []).2) :=
  ⟨⟨by decide, c7_undo_stack_bounded_lifo.1 [StackOp.undo] (mkBulkRenamer []) [] (by decide)⟩,
   ⟨by decide, by decide,
    c7_undo_stack_bounded_lifo.2.1 (List.replicate 10 [("a", "b")]) [("x", "y")]
      (by decide) (by decide)⟩,
   ⟨by decide,
    (c7_undo_stack_bounded_lifo.2.2 { mkBulkRenamer [] with undo_stack := [[("p", "q")]] }
      [] [] [("p", "q")] (by decide)).1,
    (c7_undo_stack_bounded_lifo.2.2 { mkBulkRenamer [] with undo_stack := [[("p", "q")]] }
      [] [] [("p", "q")] (by decide)).2⟩⟩

/-! ## C3: configuring with an invalid parameter set -/

/-- An orchestrator with the default configuration (default five-element
pattern). -/
def c3Renamer : BulkRenamer := mkBulkRenamer []

/-- C3 counterexample: configuring with the invalid pattern element list
`["{name}", "{bogus}"]` (the validator rejects `"{bogus}"`) returns
`(True, [])` — no error is reported — and the stored pattern state changes
from the five default elements to the partial list `["{name}"]`.  This
refutes both "validation reports the errors as a list of messages" and "the
previously stored configuration and pattern state remain unchanged". -/
theorem c3_counterexample :
    (validate_pattern_placeholder "{bogus}").1 = false ∧
    (configure_operation c3Renamer "" "" false 1 3 "" "" true false "creation"
        "%Y-%m-%d" true (some ["{name}", "{bogus}"])).1 = (true, []) ∧
    ((configure_operation c3Renamer "" "" false 1 3 "" "" true false "creation"
        "%Y-%m-%d" true (some ["{name}", "{bogos}"])).2.operation.pattern_builder.elements.map
      PatternElement.value) = ["{name}"] ∧
    (c3Renamer.operation.pattern_builder.elements.map PatternElement.value)
      = ["\x7bprefix\x7d", "{name}", "{suffix}", "{num}", "{date}"] := by
  refine ⟨?_, ?_, ?_, ?_⟩ <;> decide

/-- `set_pattern_from_list`'s loop keeps the longest valid prefix and reports
whether every element was valid. -/
theorem setPatternLoop_spec : ∀ (pl : List String) (i : Nat),
    setPatternLoop pl i =
      (pl.all (fun e => (validate_pattern_placeholder e).1),
       ((pl.takeWhile (fun e => (validate_pattern_placeholder e).1)).enumFrom i).map
         (fun p => { type := elementKind p.2, value := p.2, position := p.1 }))
  | [], _ => rfl
  | e :: rest, i => by
    by_cases hv : (validate_pattern_placeholder e).1 = false
    · simp [setPatternLoop, hv, List.takeWhile_cons, List.all_cons]
    · have hv' : (validate_pattern_placeholder e).1 = true := by
        revert hv; cases (validate_pattern_placeholder e).1 <;> simp
      simp [setPatternLoop, hv, hv', List.takeWhile_cons, List.all_cons,
        setPatternLoop_spec rest (i + 1)]

/-- C3 amended: `configure_operation` always stores the complete new parameter
set, valid or not; when pattern mode is requested with a non-empty element
list, the stored pattern becomes the longest valid prefix of that list (the
old pattern is discarded and `set_pattern_from_list`'s failure flag is
ignored); and the returned `(is_valid, errors)` pair merely validates the
resulting stored operation — so an unknown placeholder after a valid element
yields success with an empty error list, and nothing in the orchestrator
blocks a later execute. -/
theorem c3_amended_configure (br : BulkRenamer) (pfx sfx : String)
    (add_numbers : Bool) (start_number padding : Int)
    (find_text replace_text : String) (case_sensitive add_date : Bool)
    (date_type date_format : String) (use_pattern : Bool)
    (pattern_elements : Option (List String)) :
    (configure_operation br pfx sfx add_numbers start_number padding find_text
        replace_text case_sensitive add_date date_type date_format use_pattern
        pattern_elements).2.operation =
      { pfx := pfx, sfx := sfx, add_numbers := add_numbers,
        start_number := start_number, padding := padding,
        find_text := find_text, replace_text := replace_text,
        case_sensitive := case_sensitive, add_date := add_date,
        date_type := date_type, date_format := date_format,
        use_pattern := use_pattern,
        pattern_builder :=
          { elements :=
              if use_pattern && patternElementsTruthy pattern_elements then
                (((pattern_elements.getD []).takeWhile
                    (fun e => (validate_pattern_placeholder e).1)).enum).map
                  (fun p => { type := elementKind p.2, value := p.2, position := p.1 })
              else br.operation.pattern_builder.elements } } ∧
    (configure_operation br pfx sfx add_numbers start_number padding find_text
        replace_text case_sensitive add_date date_type date_format use_pattern
        pattern_elements).2.files = br.files ∧
    (configure_operation br pfx sfx add_numbers start_number padding find_text
        replace_text case_sensitive add_date date_type date_format use_pattern
        pattern_elements).2.undo_stack = br.undo_stack ∧
    (configure_operation br pfx sfx add_numbers start_number padding find_text
        replace_text case_sensitive add_date date_type date_format use_pattern
        pattern_elements).1 =
      (configure_operation br pfx sfx add_numbers start_number padding find_text
        replace_text case_sensitive add_date date_type date_format use_pattern
        pattern_elements).2.operation.validate := by
  refine ⟨?_, rfl, rfl, rfl⟩
  simp only [configure_operation]
  by_cases hc : (use_pattern && patternElementsTruthy pattern_elements) = true
  · simp only [hc, if_true, set_pattern_from_list, setPatternLoop_spec, List.enum]
  · have hc' : (use_pattern && patternElementsTruthy pattern_elements) = false :=
      eq_false_of_ne_true hc
    simp only [hc', Bool.false_eq_true, if_false]

/-! ## C6: best-effort per-file execution -/

/-- Transcription of the C6 claim for one file: untouched when nothing is
staged; otherwise either renamed (identity updated, pending cleared, pair
recorded) or left as-is with one collected error string naming the file. -/
def execOutcome (pairs : List (String × String)) (errs : List String)
    (f f' : FileItem) : Prop :=
  (f.new_name = "" → f' = f) ∧
  (f.new_name ≠ "" →
    (f' = renameUpdate f ∧ (f.original_path, FileItem.new_path f) ∈ pairs) ∨
    (f' = f ∧ ∃ m,
      ("Failed to rename " ++ Py.basename f.original_path ++ ": " ++ m) ∈ errs))

/-- `execOutcome` is monotone under extending the recorded pairs/errors. -/
theorem execOutcome_mono {p p' : List (String × String)} {e e' : List String}
    (hp : ∀ x, x ∈ p → x ∈ p') (he : ∀ x, x ∈ e → x ∈ e') {f f' : FileItem} :
    execOutcome p e f f' → execOutcome p' e' f f' :=
  fun h => ⟨h.1, fun hn =>
    (h.2 hn).imp (fun hc => ⟨hc.1, hp _ hc.2⟩)
      (fun hc => ⟨hc.1, hc.2.elim (fun m hm => ⟨m, he _ hm⟩)⟩)⟩

/-- The rename loop touches every staged file: each pending file contributes
either one recorded pair or one error (never aborting the rest), and each
resulting item is the claimed per-file outcome. -/
theorem executeLoop_spec : ∀ (files : List FileItem) (fs : Fs),
    (executeLoop files fs).1.length + (executeLoop files fs).2.1.length =
      (files.filter (fun f => f.new_name ≠ "")).length ∧
    List.Forall₂ (execOutcome (executeLoop files fs).1 (executeLoop files fs).2.1)
      files (executeLoop files fs).2.2.1
  | [], fs => ⟨rfl, List.Forall₂.nil⟩
  | f :: rest, fs => by
    by_cases hn : f.new_name = ""
    · have ih := executeLoop_spec rest fs
      simp only [executeLoop, hn, if_pos rfl, List.filter_cons]
      constructor
      · simpa [hn] using ih.1
      · refine List.Forall₂.cons ⟨fun _ => rfl, fun hne => absurd hn hne⟩ ?_
        simpa [hn] using ih.2
    · rcases hsr : safe_rename fs f.original_path (FileItem.new_path f) with ⟨⟨ok, msg⟩, fs1⟩
      cases ok
      · -- per-file failure: one error collected, the loop continues on the
        -- filesystem `safe_rename` handed back (unchanged on failure)
        have ih := executeLoop_spec rest fs1
        have e1 : (executeLoop (f :: rest) fs).1 = (executeLoop rest fs1).1 := by
          simp [executeLoop, hn, hsr]
        have e2 : (executeLoop (f :: rest) fs).2.1 =
            ("Failed to rename " ++ Py.basename f.original_path ++ ": " ++ msg.getD "")
              :: (executeLoop rest fs1).2.1 := by
          simp [executeLoop, hn, hsr]
        have e3 : (executeLoop (f :: rest) fs).2.2.1 = f :: (executeLoop rest fs1).2.2.1 := by
          simp [executeLoop, hn, hsr]
        rw [e1, e2, e3, List.filter_cons]
        constructor
        · have h1 := ih.1
          simp only [List.length_cons, hn]
          simp only [ne_eq, decide_not] at h1 ⊢
          simp [hn] at h1 ⊢
          omega
        · refine List.Forall₂.cons
            ⟨fun h => absurd h hn,
             fun _ => Or.inr ⟨rfl, msg.getD "", List.mem_cons_self _ _⟩⟩ ?_
          exact List.Forall₂.imp
            (fun a b h =>
              execOutcome_mono (fun x hx => hx) (fun x hx => List.mem_cons_of_mem _ hx) h)
            ih.2
      · -- per-file success: pair recorded, item updated, the loop continues on `fs1`
        have ih := executeLoop_spec rest fs1
        have e1 : (executeLoop (f :: rest) fs).1 =
            (f.original_path, FileItem.new_path f) :: (executeLoop rest fs1).1 := by
          simp [executeLoop, hn, hsr]
        have e2 : (executeLoop (f :: rest) fs).2.1 = (executeLoop rest fs1).2.1 := by
          simp [executeLoop, hn, hsr]
        have e3 : (executeLoop (f :: rest) fs).2.2.1 =
            renameUpdate f :: (executeLoop rest fs1).2.2.1 := by
          simp [executeLoop, hn, hsr]
        rw [e1, e2, e3, List.filter_cons]
        constructor
        · have h1 := ih.1
          simp only [List.length_cons, hn]
          simp only [ne_eq, decide_not] at h1 ⊢
          simp [hn] at h1 ⊢
          omega
        · refine List.Forall₂.cons
            ⟨fun h => absurd h hn, fun _ => Or.inl ⟨rfl, List.mem_cons_self _ _⟩⟩ ?_
          exact List.Forall₂.imp
            (fun a b h =>
              execOutcome_mono (fun x hx => List.mem_cons_of_mem _ hx) (fun x hx => hx) h)
            ih.2

/-- C6: when validation passes, execution is best-effort per file — every
staged file is attempted (recorded pairs plus collected errors add up to the
staged count, so a failure never aborts the remaining batch), each renamed
entity has its path identity updated and its pending name cleared, and each
failed entity is untouched with one error string naming it. -/
theorem c6_best_effort_batch (files : List FileItem) (fs : Fs)
    (hval : validate_changes files fs = []) :
    (fmExecuteRename files fs).1.length + (fmExecuteRename files fs).2.1.length =
      (files.filter (fun f => f.new_name ≠ "")).length ∧
    List.Forall₂
      (execOutcome (fmExecuteRename files fs).1 (fmExecuteRename files fs).2.1)
      files (fmExecuteRename files fs).2.2.1 := by
  rw [fmExecuteRename, if_neg (by simp [hval])]
  exact executeLoop_spec files fs

/-- The C6 scenario: three staged files; file 2's staged name equals its
original name, so its target pre-exists on disk (its own path) yet
validation permits it as a no-op. -/
def c6Files : List FileItem :=
  [{ original_path := "d/f1.jpg", original_name := "f1", new_name := "g1",
     extension := ".jpg", directory := "d" },
   { original_path := "d/f2.jpg", original_name := "f2", new_name := "f2",
     extension := ".jpg", directory := "d" },
   { original_path := "d/f3.jpg", original_name := "f3", new_name := "g3",
     extension := ".jpg", directory := "d" }]

/-- The on-disk state for the C6 scenario. -/
def c6Fs : Fs := ["d/f1.jpg", "d/f2.jpg", "d/f3.jpg"]

/-- C6 witness: on the 3-file batch where only file 2 fails (its target
pre-exists), files 1 and 3 are still renamed, the error list has exactly one
entry referencing file 2, and the per-file outcome relation holds. -/
theorem c6_witness :
    validate_changes c6Files c6Fs = [] ∧
    ((fmExecuteRename c6Files c6Fs).1.length + (fmExecuteRename c6Files c6Fs).2.1.length =
        (c6Files.filter (fun f => f.new_name ≠ "")).length ∧
      List.Forall₂
        (execOutcome (fmExecuteRename c6Files c6Fs).1 (fmExecuteRename c6Files c6Fs).2.1)
        c6Files (fmExecuteRename c6Files c6Fs).2.2.1) ∧
    (fmExecuteRename c6Files c6Fs).1 =
      [("d/f1.jpg", "d/g1.jpg"), ("d/f3.jpg", "d/g3.jpg")] ∧
    (fmExecuteRename c6Files c6Fs).2.1 =
      ["Failed to rename f2.jpg: Target file already exists: d/f2.jpg"] :=
  ⟨by decide, c6_best_effort_batch c6Files c6Fs (by decide), by decide, by decide⟩

/-! ## C2: the standard-mode transform order -/

/-- C2 amended claim, per file: the four stages run in the fixed order
find/replace, prefix/suffix, numbering, date-stamp, but the find/replace AND
the prefix/suffix stages each read the ORIGINAL base name — prefix/suffix
overwrites the find/replace result with `prefix + original + suffix` whenever
prefix or suffix is non-empty (it leaves the staged name untouched only when
both are empty) — while numbering and date-stamping read the prior stage's
output, falling back to the original base name when that output is empty. -/
def spec_standard_name (op : RenameOperation) (dates : DateOracle)
    (f : FileItem) (i : Nat) : String :=
  let n1 := if op.find_text ≠ "" then
      (if op.case_sensitive then Py.strReplace f.original_name op.find_text op.replace_text
       else Py.strReplaceCI f.original_name op.find_text op.replace_text)
    else ""
  let n2 := if op.pfx ≠ "" ∨ op.sfx ≠ "" then op.pfx ++ f.original_name ++ op.sfx else n1
  let n3 := if op.add_numbers then
      (if n2 ≠ "" then n2 else f.original_name) ++ "_" ++
        Py.zfill (toString (op.start_number + (i : Int))) op.padding
    else n2
  if op.add_date then
    match dates f.original_path op.date_type op.date_format with
    | some d =>
        if d ≠ "" then (if n3 ≠ "" then n3 else f.original_name) ++ "_" ++ d else n3
    | none => n3
  else n3

/-- The amended C2 pipeline over a file list. -/
def spec_standard_pipeline (op : RenameOperation) (dates : DateOracle)
    (files : List FileItem) : List FileItem :=
  files.enum.map (fun p => { p.2 with new_name := spec_standard_name op dates p.2 p.1 })

/-- The find/replace stage as a single map. -/
theorem text_stage_eq (op : RenameOperation) (X : List FileItem) :
    (if op.find_text ≠ "" then
      apply_text_replacement X op.find_text op.replace_text op.case_sensitive
    else X)
    = X.map (fun f => if op.find_text ≠ "" then
        { f with new_name :=
            if op.case_sensitive then Py.strReplace f.original_name op.find_text op.replace_text
            else Py.strReplaceCI f.original_name op.find_text op.replace_text }
      else f) := by
  by_cases h : op.find_text = ""
  · simp [h, List.map_id]
  · simp [h, apply_text_replacement]

/-- The prefix/suffix stage as a single map. -/
theorem affix_stage_eq (op : RenameOperation) (X : List FileItem) :
    (if op.pfx ≠ "" ∨ op.sfx ≠ "" then apply_prefix_suffix X op.pfx op.sfx else X)
    = X.map (fun f => if op.pfx ≠ "" ∨ op.sfx ≠ "" then
        { f with new_name := op.pfx ++ f.original_name ++ op.sfx }
      else f) := by
  by_cases h : op.pfx ≠ "" ∨ op.sfx ≠ ""
  · simp [h, apply_prefix_suffix]
  · simp [h, List.map_id]

/-- The numbering stage as a single map over the enumerated list. -/
theorem num_stage_eq (op : RenameOperation) (X : List FileItem) :
    (if op.add_numbers then apply_sequential_numbering X op.start_number op.padding else X)
    = X.enum.map (fun p => if op.add_numbers then
        { p.2 with new_name :=
            (if p.2.new_name ≠ "" then p.2.new_name else p.2.original_name) ++ "_" ++
              Py.zfill (toString (op.start_number + (p.1 : Int))) op.padding }
      else p.2) := by
  by_cases h : op.add_numbers
  · simp [h, apply_sequential_numbering]
  · simp only [h, Bool.false_eq_true, if_false]
    exact (List.enumFrom_map_snd 0 X).symm

/-- The date stage as a single map. -/
theorem date_stage_eq (op : RenameOperation) (dates : DateOracle) (X : List FileItem) :
    (if op.add_date then apply_date_addition X op.date_type op.date_format dates else X)
    = X.map (fun f => if op.add_date then
        (match dates f.original_path op.date_type op.date_format with
         | some d =>
             if d ≠ "" then
               { f with new_name :=
                   (if f.new_name ≠ "" then f.new_name else f.original_name) ++ "_" ++ d }
             else f
         | none => f)
      else f) := by
  by_cases h : op.add_date
  · simp [h, apply_date_addition]
  · simp [h, List.map_id]

/-- The operation used by the C2 counterexample and witness: find/replace
`a -> z` together with prefix `P`. -/
def c2Op : RenameOperation :=
  { defaultOperation with find_text := "a", replace_text := "z", pfx := "P" }

/-- The file used by the C2 counterexample and witness. -/
def c2File : FileItem := FileItem.load "d/abc.jpg"

/-- C2 counterexample: with find-text `"a"` (replaced by `"z"`) and prefix
`"P"`, the claim predicts the prefix/suffix stage produces
`prefix + (find/replace result) + suffix = "Pzbc"`, but the code stages
`"Pabc"`: `apply_prefix_suffix` reads the original base name, discarding the
find/replace result. -/
theorem c2_counterexample :
    (apply_standard_operations c2Op noDates [c2File]).map FileItem.new_name = ["Pabc"] ∧
    c2Op.pfx ++ Py.strReplace c2File.original_name c2Op.find_text c2Op.replace_text ++ c2Op.sfx
      = "Pzbc" ∧
    ("Pabc" : String) ≠ "Pzbc" :=
  ⟨by decide, by decide, by decide⟩

/-- C2 amended: in standard mode the pipeline equals the claimed fixed-order
stage chain in which find/replace and prefix/suffix both read the original
base name and numbering/date-stamping read the prior stage's output. -/
theorem c2_standard_pipeline_amended (op : RenameOperation) (dates : DateOracle)
    (files : List FileItem) (hsp : op.use_pattern = false) :
    preview_stage op dates files = spec_standard_pipeline op dates files := by
  unfold preview_stage apply_operation
  rw [hsp]
  simp only [Bool.false_eq_true, if_false]
  simp only [apply_standard_operations]
  rw [text_stage_eq, affix_stage_eq, num_stage_eq, date_stage_eq]
  unfold reset_changes
  simp only [List.map_map, enum_map_commute]
  unfold spec_standard_pipeline
  refine congrArg (fun g => List.map g files.enum) (funext fun p => ?_)
  rcases p with ⟨i, f⟩
  simp only [Function.comp_apply, spec_standard_name]
  by_cases h1 : op.find_text = "" <;> by_cases h2 : op.pfx ≠ "" ∨ op.sfx ≠ "" <;>
    by_cases h3 : op.add_numbers <;> by_cases h4 : op.add_date <;>
      cases hd : dates f.original_path op.date_type op.date_format <;>
        simp [h1, h2, h3, h4, hd] <;> split_ifs <;> rfl

/-- C2 witness: a concrete standard-mode run matching the amended pipeline
(the staged name is "Pabc", not the claimed "Pzbc"). -/
theorem c2_witness :
    c2Op.use_pattern = false ∧
    preview_stage c2Op noDates [c2File] = spec_standard_pipeline c2Op noDates [c2File] ∧
    (preview_stage c2Op noDates [c2File]).map FileItem.new_name = ["Pabc"] :=
  ⟨rfl, c2_standard_pipeline_amended c2Op noDates [c2File] rfl, by decide⟩

/-! ## C4: pattern rendering -/

/-- The separator set named by the C4 claim as written: '-', '_' and space
only. -/
def isClaimSep (c : Char) : Bool := c = '-' || c = '_' || c = ' '

/-- Run-collapsing over the claim's separator set (used to state the claim
as written). -/
def claim_collapse : List Char → Bool → List Char
  | [], _ => []
  | c :: rest, dropping =>
    if isClaimSep c then
      if dropping then claim_collapse rest true
      else c :: claim_collapse rest true
    else c :: claim_collapse rest false

/-- The token emission common to the claim and the code: literals verbatim,
placeholders only when their value is non-empty (an empty value contributes
nothing). -/
def emitToken (values : PatternValues) (original_name : String) (t : PatternElement) : String :=
  if t.type = "placeholder" then lookupValue values original_name (innerName t.value)
  else t.value

/-- C4 as written: concatenate the emitted tokens, collapse runs of '-', '_'
and SPACE only, trim '-', '_' and space, fall back to the original name or
"unnamed", and append the dot-normalized extension. -/
def claim_render (tokens : List PatternElement) (original_name : String)
    (values : PatternValues) (extension : String) : String :=
  let body := String.join (tokens.map (emitToken values original_name))
  let trimmed := stripSeps (String.mk (claim_collapse body.toList false))
  let result := if trimmed = "" then
      (if original_name ≠ "" then original_name else "unnamed")
    else trimmed
  result ++ (if extension ≠ "" && ¬ Py.startsWith extension "." then "." ++ extension
             else extension)

/-- The amended collapse: runs of '-', '_' and any whitespace character
collapse to the run's first character (two-at-a-time formulation). -/
def spec_collapse : List Char → List Char
  | [] => []
  | [c] => [c]
  | a :: b :: rest =>
    if isSepChar a ∧ isSepChar b then spec_collapse (a :: rest)
    else a :: spec_collapse (b :: rest)
  termination_by l => l.length
  decreasing_by all_goals simp only [List.length_cons]; omega

/-- C4 amended: same pipeline, but the collapse acts on runs of '-', '_' and
any whitespace character, while the trim strips only '-', '_' and space. -/
def spec_render (tokens : List PatternElement) (original_name : String)
    (values : PatternValues) (extension : String) : String :=
  let body := String.join (tokens.map (emitToken values original_name))
  let trimmed := stripSeps (String.mk (spec_collapse body.toList))
  let result := if trimmed = "" then
      (if original_name ≠ "" then original_name else "unnamed")
    else trimmed
  result ++ (if extension ≠ "" && ¬ Py.startsWith extension "." then "." ++ extension
             else extension)

/-- Folding string concatenation from an arbitrary seed. -/
theorem foldl_append_seed : ∀ (l : List String) (a : String),
    l.foldl (· ++ ·) a = a ++ l.foldl (· ++ ·) ""
  | [], a => (String.append_empty a).symm
  | b :: l, a => by
    simp only [List.foldl_cons]
    rw [foldl_append_seed l (a ++ b), foldl_append_seed l ("" ++ b)]
    rw [String.empty_append, String.append_assoc]

/-- `String.join` distributes over cons. -/
theorem join_cons_str (s : String) (l : List String) :
    String.join (s :: l) = s ++ String.join l := by
  simp only [String.join, List.foldl_cons]
  rw [foldl_append_seed l ("" ++ s), String.empty_append]

/-- The parts list of `generate_filename` joins to the same string as plain
token emission: placeholders with empty values contribute nothing either way. -/
theorem buildParts_join : ∀ (els : List PatternElement) (values : PatternValues)
    (original_name : String),
    String.join (buildParts els values original_name) =
      String.join (els.map (emitToken values original_name))
  | [], _, _ => rfl
  | e :: rest, values, original_name => by
    have ih := buildParts_join rest values original_name
    by_cases hp : e.type = "placeholder"
    · by_cases hv : lookupValue values original_name (innerName e.value) = ""
      · simp [buildParts, emitToken, hp, hv, ih, join_cons_str, String.empty_append]
      · simp [buildParts, emitToken, hp, hv, ih, join_cons_str]
    · simp [buildParts, emitToken, hp, ih, join_cons_str]

/-- The flag-based collapse of the code equals the two-at-a-time collapse of
the amended claim. -/
theorem collapse_eq_spec_aux : ∀ (n : Nat) (l : List Char), l.length ≤ n →
    (collapseRuns l false = spec_collapse l ∧
     ∀ a, isSepChar a = true → spec_collapse (a :: l) = a :: collapseRuns l true) := by
  intro n
  induction n with
  | zero =>
    intro l hl
    have hnil : l = [] := List.eq_nil_of_length_eq_zero (Nat.le_zero.mp hl)
    subst hnil
    exact ⟨by simp [collapseRuns, spec_collapse],
           fun a _ => by simp [collapseRuns, spec_collapse]⟩
  | succ m ih =>
    intro l hl
    cases l with
    | nil =>
      exact ⟨by simp [collapseRuns, spec_collapse],
             fun a _ => by simp [collapseRuns, spec_collapse]⟩
    | cons c rest =>
      have hrest : rest.length ≤ m := by
        simp only [List.length_cons] at hl; omega
      have IHm := ih rest hrest
      have hmain : collapseRuns (c :: rest) false = spec_collapse (c :: rest) := by
        by_cases hc : isSepChar c = true
        · rw [show collapseRuns (c :: rest) false = c :: collapseRuns rest true from by
            simp [collapseRuns, hc]]
          exact (IHm.2 c hc).symm
        · cases rest with
          | nil => simp [collapseRuns, spec_collapse, hc]
          | cons b rest2 =>
            rw [show collapseRuns (c :: b :: rest2) false
                  = c :: collapseRuns (b :: rest2) false from by simp [collapseRuns, hc]]
            rw [show spec_collapse (c :: b :: rest2) = c :: spec_collapse (b :: rest2) from by
              simp [spec_collapse, hc]]
            exact congrArg _ IHm.1
      refine ⟨hmain, fun a ha => ?_⟩
      by_cases hc : isSepChar c = true
      · rw [show spec_collapse (a :: c :: rest) = spec_collapse (a :: rest) from by
          simp [spec_collapse, ha, hc]]
        rw [show collapseRuns (c :: rest) true = collapseRuns rest true from by
          simp [collapseRuns, hc]]
        exact IHm.2 a ha
      · rw [show spec_collapse (a :: c :: rest) = a :: spec_collapse (c :: rest) from by
          simp [spec_collapse, hc]]
        rw [show collapseRuns (c :: rest) true = c :: collapseRuns rest false from by
          simp [collapseRuns, hc]]
        rw [show collapseRuns (c :: rest) false = c :: collapseRuns rest false from by
          simp [collapseRuns, hc]] at hmain
        exact congrArg _ hmain.symm

/-- The code's regex-collapse equals the amended claim's run-collapse. -/
theorem collapse_eq_spec (l : List Char) : collapseRuns l false = spec_collapse l :=
  (collapse_eq_spec_aux l.length l le_rfl).1

/-- Tokens and values for the C4 counterexample: one `{prefix}` placeholder
whose value holds a run of tab characters. -/
def c4Tokens : List PatternElement := [{ type := "placeholder", value := "\x7bprefix\x7d", position := 0 }]

/-- The value map for the C4 counterexample. -/
def c4Values : PatternValues := { pfx := "a\t\tb", sfx := "", num := "", date := "" }

/-- C4 counterexample: on a placeholder value containing a tab run, the code
collapses the run (the regex class is `[-_\s]+`, all whitespace), while the
claim as written — separators '-', '_' and space only — leaves it alone. -/
theorem c4_counterexample :
    (PatternBuilder.mk c4Tokens).generate_filename "x" c4Values "" = "a\tb" ∧
    claim_render c4Tokens "x" c4Values "" = "a\t\tb" ∧
    ("a\tb" : String) ≠ "a\t\tb" :=
  ⟨by decide, by decide, by decide⟩

/-- C4 amended: rendering concatenates tokens in order (literals verbatim,
placeholders only when non-empty), collapses every run of '-', '_' and any
whitespace character to the run's first character, trims leading/trailing
'-', '_' and space, falls back to the original base name (or "unnamed"),
and appends the dot-normalized extension last; the default token set with
the claimed values yields "IMGphotoedited0012024-01-15.jpg" with no
auto-separator between adjacent placeholders. -/
theorem c4_render_amended :
    (∀ (pb : PatternBuilder) (original_name : String) (values : PatternValues)
       (extension : String),
       pb.generate_filename original_name values extension =
         spec_render pb.elements original_name values extension) ∧
    defaultPatternBuilder.generate_filename "photo"
      { pfx := "IMG", sfx := "edited", num := "001", date := "2024-01-15" } ".jpg"
      = "IMGphotoedited0012024-01-15.jpg" := by
  constructor
  · intro pb name values ext
    simp only [PatternBuilder.generate_filename, spec_render]
    rw [buildParts_join, collapse_eq_spec]
  · decide
